import Mathlib

/-!
Verification of the coordinate-transform and interaction engine of the
`egui` plot widget (`src/egui/src/widgets/plot/mod.rs`), shallowly embedded
over exact rationals.  The companion modules `transform.rs` and `items.rs`
are not part of the sources under verification; the definitions taken from
them are modelled from the specification and marked as such.
-/

namespace EguiPlot

/-- Modelled from the spec: `PlotBounds` from `transform.rs` — an axis-aligned
rectangle in data space, `{min: [f64;2], max: [f64;2]}`, over exact rationals. -/
structure PlotBounds where
  min : ℚ × ℚ
  max : ℚ × ℚ
  deriving DecidableEq, Repr

/-- Modelled from the spec: `PlotBounds::is_valid` from `transform.rs` — per the
error-handling design, zero-area or inverted bounds are invalid, so validity is
strict inequality on both axes (finiteness is automatic over ℚ). -/
def PlotBounds.is_valid (b : PlotBounds) : Bool :=
  decide (b.min.1 < b.max.1) && decide (b.min.2 < b.max.2)

/-- Whether the bounds carry any content: both axes ordered (non-strictly).
The inverted sentinel `NOTHING` has no content. -/
def PlotBounds.has_content (b : PlotBounds) : Bool :=
  decide (b.min.1 ≤ b.max.1) && decide (b.min.2 ≤ b.max.2)

/-- Modelled from the spec: the sentinel "nothing" bounds from `transform.rs`
(the real code stores `min = +∞`, `max = -∞`, which ℚ lacks; any bounds with
both axes inverted behaves identically for `merge` and `is_valid`). -/
def PlotBounds.NOTHING : PlotBounds :=
  ⟨(1, 1), (-1, -1)⟩

/-- Modelled from the spec: `PlotBounds::merge` from `transform.rs` — per-axis
min/max of two bounds, ignoring an operand that is the invalid sentinel, so that
merging with `NOTHING` returns the other operand unchanged. -/
def PlotBounds.merge (a b : PlotBounds) : PlotBounds :=
  if !b.has_content then a
  else if !a.has_content then b
  else
    ⟨(Min.min a.min.1 b.min.1, Min.min a.min.2 b.min.2),
     (Max.max a.max.1 b.max.1, Max.max a.max.2 b.max.2)⟩

/-- Modelled from the spec: `PlotBounds::add_relative_margin` from
`transform.rs` — expand each axis by `frac * (max - min)`, with the documented
fallback span `1` when the axis range is zero. -/
def PlotBounds.add_relative_margin (b : PlotBounds) (frac : ℚ × ℚ) : PlotBounds :=
  let wx := if b.max.1 - b.min.1 = 0 then 1 else b.max.1 - b.min.1
  let wy := if b.max.2 - b.min.2 = 0 then 1 else b.max.2 - b.min.2
  ⟨(b.min.1 - frac.1 * wx, b.min.2 - frac.2 * wy),
   (b.max.1 + frac.1 * wx, b.max.2 + frac.2 * wy)⟩

/-- Shift bounds by a data-space delta (helper for `translate_bounds`). -/
def PlotBounds.translate (b : PlotBounds) (d : ℚ × ℚ) : PlotBounds :=
  ⟨(b.min.1 + d.1, b.min.2 + d.2), (b.max.1 + d.1, b.max.2 + d.2)⟩

/-- The fixed screen rectangle allotted to the plot (pixel coordinates,
y growing downward). -/
structure ScreenRect where
  min : ℚ × ℚ
  max : ℚ × ℚ
  deriving DecidableEq, Repr

/-- Modelled from the spec: `emath::remap` — the linear map sending the
interval `[a, b]` to `[c, d]`. -/
def remap (x a b c d : ℚ) : ℚ :=
  c + (x - a) / (b - a) * (d - c)

/-- Modelled from the spec: `ScreenTransform` from `transform.rs` — the
bidirectional affine map between a fixed screen rectangle and mutable data
bounds. -/
structure ScreenTransform where
  frame : ScreenRect
  bounds : PlotBounds
  deriving DecidableEq, Repr

/-- Modelled from the spec: `ScreenTransform::value_from_position` — the affine
screen→data map; screen y grows downward while data y grows upward, so the
y component is flipped. -/
def ScreenTransform.value_from_position (t : ScreenTransform) (p : ℚ × ℚ) : ℚ × ℚ :=
  (remap p.1 t.frame.min.1 t.frame.max.1 t.bounds.min.1 t.bounds.max.1,
   remap p.2 t.frame.max.2 t.frame.min.2 t.bounds.min.2 t.bounds.max.2)

/-- Modelled from the spec: `ScreenTransform::dvalue_dpos` — data units per
pixel on each axis (negative on y because of the flip). -/
def ScreenTransform.dvalue_dpos (t : ScreenTransform) : ℚ × ℚ :=
  ((t.bounds.max.1 - t.bounds.min.1) / (t.frame.max.1 - t.frame.min.1),
   (t.bounds.min.2 - t.bounds.max.2) / (t.frame.max.2 - t.frame.min.2))

/-- Modelled from the spec: `ScreenTransform::translate_bounds` — shift the
bounds by `screen_delta * dvalue_dpos`, no clamping. -/
def ScreenTransform.translate_bounds (t : ScreenTransform) (delta : ℚ × ℚ) : ScreenTransform :=
  { t with bounds := t.bounds.translate (delta.1 * t.dvalue_dpos.1, delta.2 * t.dvalue_dpos.2) }

/-- Modelled from the spec: `ScreenTransform::zoom` — scale each axis span by
`1/factor`, keeping the data value under `anchor` fixed on screen. -/
def ScreenTransform.zoom (t : ScreenTransform) (factor : ℚ × ℚ) (anchor : ℚ × ℚ) : ScreenTransform :=
  let c := t.value_from_position anchor
  { t with bounds :=
      ⟨(c.1 - (c.1 - t.bounds.min.1) / factor.1, c.2 - (c.2 - t.bounds.min.2) / factor.2),
       (c.1 + (t.bounds.max.1 - c.1) / factor.1, c.2 + (t.bounds.max.2 - c.2) / factor.2)⟩ }

/-- Modelled from the spec: recenter one axis interval symmetrically around
zero (used by `ScreenTransform::new` for the `center_x`/`center_y` flags). -/
def symmetrize (lo hi : ℚ) : ℚ × ℚ :=
  (-(Max.max |lo| |hi|), Max.max |lo| |hi|)

/-- Modelled from the spec: `ScreenTransform::new` — store the frame and
bounds, recentering an axis around zero when its centering flag is set. -/
def ScreenTransform.new (frame : ScreenRect) (bounds : PlotBounds)
    (center_x center_y : Bool) : ScreenTransform :=
  let bx := if center_x then symmetrize bounds.min.1 bounds.max.1 else (bounds.min.1, bounds.max.1)
  let byv := if center_y then symmetrize bounds.min.2 bounds.max.2 else (bounds.min.2, bounds.max.2)
  ⟨frame, ⟨(bx.1, byv.1), (bx.2, byv.2)⟩⟩

/-- Modelled from the spec: `ScreenTransform::set_aspect` — adjust one axis's
span (about its midpoint) so that `screen_w/screen_h = ratio * data_w/data_h`;
`preserve_y` keeps the y span fixed and adjusts x, otherwise y is adjusted.
The frame is never changed. -/
def ScreenTransform.set_aspect (t : ScreenTransform) (ratio : ℚ) (preserve_y : Bool) : ScreenTransform :=
  let sw := t.frame.max.1 - t.frame.min.1
  let sh := t.frame.max.2 - t.frame.min.2
  if preserve_y then
    let dh := t.bounds.max.2 - t.bounds.min.2
    let new_w := sw * dh / (sh * ratio)
    let cx := (t.bounds.min.1 + t.bounds.max.1) / 2
    { t with bounds := ⟨(cx - new_w / 2, t.bounds.min.2), (cx + new_w / 2, t.bounds.max.2)⟩ }
  else
    let dw := t.bounds.max.1 - t.bounds.min.1
    let new_h := ratio * dw * sh / sw
    let cy := (t.bounds.min.2 + t.bounds.max.2) / 2
    { t with bounds := ⟨(t.bounds.min.1, cy - new_h / 2), (t.bounds.max.1, cy + new_h / 2)⟩ }

/-- `LinkedAxisGroup` (mod.rs lines 61-66): the two link flags.  The shared
`Rc<RefCell<Option<PlotBounds>>>` cell is modelled as explicitly passed state
of type `Option PlotBounds`. -/
structure LinkedAxisGroup where
  link_x : Bool
  link_y : Bool
  deriving DecidableEq, Repr

/-- `LinkedAxisGroup::new` (mod.rs line 73): the shared cell starts out empty. -/
def LinkedAxisGroup.init : Option PlotBounds := none

/-- `LinkedAxisGroup::get` (mod.rs lines 104-106): return the cell's contents. -/
def LinkedAxisGroup.get (state : Option PlotBounds) : Option PlotBounds := state

/-- `LinkedAxisGroup::set` (mod.rs lines 108-110): store the argument
unconditionally, discarding whatever the cell held. -/
def LinkedAxisGroup.set (b : PlotBounds) (_state : Option PlotBounds) : Option PlotBounds :=
  some b

/-- The per-frame interaction signals and configuration consumed by
`Plot::show` (mod.rs lines 428-727), with the host toolkit's response object
flattened into plain fields. -/
structure FrameInput where
  rect : ScreenRect
  last_bounds : PlotBounds
  auto_bounds : Bool
  last_click_pos_for_zoom : Option (ℚ × ℚ)
  linked_axes : Option LinkedAxisGroup
  link_state : Option PlotBounds
  double_clicked : Bool
  item_bounds : List PlotBounds
  min_auto_bounds : PlotBounds
  margin_fraction : ℚ × ℚ
  center_x_axis : Bool
  center_y_axis : Bool
  data_aspect : Option ℚ
  allow_drag : Bool
  dragged_by_primary : Bool
  drag_delta : ℚ × ℚ
  allow_boxed_zoom : Bool
  drag_started_by_zoom : Bool
  drag_released : Bool
  hover_pos : Option (ℚ × ℚ)
  allow_zoom : Bool
  zoom_factor : ℚ × ℚ
  scroll_delta : ℚ × ℚ
  deriving DecidableEq, Repr

/-- What a frame of `Plot::show` resolves to: the final screen transform, the
persisted `auto_bounds` flag and boxed-zoom click position, and the link
group's shared cell after the write-back. -/
structure FrameOutput where
  transform : ScreenTransform
  auto_bounds : Bool
  last_click_pos_for_zoom : Option (ℚ × ℚ)
  link_state : Option PlotBounds
  deriving DecidableEq, Repr

/-- mod.rs lines 566-579: transfer the bounds from a link group — each linked
axis is overridden by the group's value, and auto bounds is turned off when the
group supplied one, "to keep it from overriding what we just set". -/
def linkOverride (linked : Option LinkedAxisGroup) (state : Option PlotBounds)
    (bounds : PlotBounds) (auto : Bool) : PlotBounds × Bool :=
  match linked with
  | none => (bounds, auto)
  | some axes =>
    match LinkedAxisGroup.get state with
    | none => (bounds, auto)
    | some linked_bounds =>
      let b1 := if axes.link_x then
          { bounds with min := (linked_bounds.min.1, bounds.min.2),
                        max := (linked_bounds.max.1, bounds.max.2) }
        else bounds
      let b2 := if axes.link_y then
          { b1 with min := (b1.min.1, linked_bounds.min.2),
                    max := (b1.max.1, linked_bounds.max.2) }
        else b1
      (b2, false)

/-- mod.rs lines 585-591: bounds set automatically from content — start from
`min_auto_bounds`, merge every item's bounds, then add the relative margin. -/
def autoBoundsFit (min_auto : PlotBounds) (items : List PlotBounds)
    (margin : ℚ × ℚ) : PlotBounds :=
  (items.foldl PlotBounds.merge min_auto).add_relative_margin margin

/-- mod.rs lines 604-608: a primary-button drag pans by `-drag_delta` and
disables auto bounds. -/
def applyDrag (allow dragged : Bool) (delta : ℚ × ℚ) (t : ScreenTransform)
    (auto : Bool) : ScreenTransform × Bool :=
  if allow && dragged then (t.translate_bounds (-delta.1, -delta.2), false)
  else (t, auto)

/-- mod.rs lines 640-645: the data-space bounds a released box-zoom drag
commits — `min = [start.x, end.y]`, `max = [end.x, start.y]` where start and
end are the two screen corners mapped through `value_from_position`. -/
def boxZoomNewBounds (t : ScreenTransform) (box_start box_end : ℚ × ℚ) : PlotBounds :=
  let s := t.value_from_position box_start
  let e := t.value_from_position box_end
  ⟨(s.1, e.2), (e.1, s.2)⟩

/-- mod.rs lines 611-656: the boxed-zoom section.  A starting zoom-button drag
records the hover position; a release with both corners known commits
`boxZoomNewBounds`: valid bounds replace the transform's bounds and disable
auto bounds, invalid bounds re-enable auto bounds instead, and the stored
click position is cleared either way.  Returns
(transform, auto_bounds, last_click_pos_for_zoom). -/
def applyBoxedZoom (allow drag_started_by_zoom drag_released : Bool)
    (hover : Option (ℚ × ℚ)) (last_click : Option (ℚ × ℚ))
    (t : ScreenTransform) (auto : Bool) :
    ScreenTransform × Bool × Option (ℚ × ℚ) :=
  if allow then
    let lc := if drag_started_by_zoom then hover else last_click
    match lc, hover with
    | some box_start, some box_end =>
      if drag_released then
        let new_bounds := boxZoomNewBounds t box_start box_end
        if new_bounds.is_valid then ({ t with bounds := new_bounds }, false, none)
        else (t, true, none)
      else (t, auto, some box_start)
    | lc1, _ => (t, auto, lc1)
  else (t, auto, last_click)

/-- mod.rs lines 658-676: continuous zoom and scroll — with the pointer over
the plot, a non-identity zoom factor zooms about the hover position and a
non-zero scroll delta pans by `-scroll_delta`; either disables auto bounds. -/
def applyScrollZoom (allow : Bool) (hover : Option (ℚ × ℚ))
    (zoom_factor scroll_delta : ℚ × ℚ) (t : ScreenTransform) (auto : Bool) :
    ScreenTransform × Bool :=
  if allow then
    match hover with
    | some hp =>
      let r1 := if zoom_factor ≠ ((1 : ℚ), (1 : ℚ)) then (t.zoom zoom_factor hp, false)
        else (t, auto)
      if scroll_delta ≠ ((0 : ℚ), (0 : ℚ)) then
        (r1.1.translate_bounds (-scroll_delta.1, -scroll_delta.2), false)
      else r1
    | none => (t, auto)
  else (t, auto)

/-- mod.rs lines 563-717: the bound-resolution and interaction pipeline of one
`Plot::show` frame, in source order: previous bounds, link-group override,
double-click re-enabling auto bounds, auto-fit from content, transform
construction (with axis centering), aspect-ratio enforcement, drag-pan,
boxed zoom, scroll/pinch zoom, and the link-group write-back. -/
def frameResolve (inp : FrameInput) : FrameOutput :=
  let bounds0 := inp.last_bounds
  let r1 := linkOverride inp.linked_axes inp.link_state bounds0 inp.auto_bounds
  let auto1 := r1.2 || inp.double_clicked
  let bounds1 := if auto1 || !r1.1.is_valid then
      autoBoundsFit inp.min_auto_bounds inp.item_bounds inp.margin_fraction
    else r1.1
  let t0 := ScreenTransform.new inp.rect bounds1 inp.center_x_axis inp.center_y_axis
  let t1 := match inp.data_aspect with
    | some ratio =>
      let preserve_y := (inp.linked_axes.map fun g => g.link_y && !g.link_x).getD false
      t0.set_aspect ratio preserve_y
    | none => t0
  let r2 := applyDrag inp.allow_drag inp.dragged_by_primary inp.drag_delta t1 auto1
  let r3 := applyBoxedZoom inp.allow_boxed_zoom inp.drag_started_by_zoom
      inp.drag_released inp.hover_pos inp.last_click_pos_for_zoom r2.1 r2.2
  let r4 := applyScrollZoom inp.allow_zoom inp.hover_pos inp.zoom_factor
      inp.scroll_delta r3.1 r3.2.1
  let link_state1 := match inp.linked_axes with
    | some _ => LinkedAxisGroup.set r4.1.bounds inp.link_state
    | none => inp.link_state
  ⟨r4.1, r4.2, r3.2.2, link_state1⟩

/-- A session of link-group writes (mod.rs lines 705-707 run once per linked
plot draw): fold `set` over the drawn plots' resolved bounds. -/
def runLinkWrites (ws : List PlotBounds) (s : Option PlotBounds) : Option PlotBounds :=
  ws.foldl (fun st b => LinkedAxisGroup.set b st) s

/-- The result of an item's `find_closest` query (items.rs contract):
the closest plotted value and its squared screen distance to the pointer. -/
structure ClosestElem where
  value : ℚ × ℚ
  dist_sq : ℚ
  deriving DecidableEq, Repr

/-- Modelled from the spec: a plottable item as the hover query observes it
through the `PlotItem` capability contract (items.rs is outside the sources):
its name, its highlight flag, and the result of `find_closest` for the queried
pointer position. -/
structure PlotItem where
  name : String
  highlighted : Bool
  closest : Option ClosestElem
  deriving DecidableEq, Repr

/-- mod.rs line 551: remove the items deselected through the legend. -/
def retainVisible (hidden : List String) (items : List PlotItem) : List PlotItem :=
  items.filter fun it => !hidden.contains it.name

/-- mod.rs lines 553-558: highlight every item whose name matches the
legend-hovered entry. -/
def applyHighlight (hovered : Option String) (items : List PlotItem) : List PlotItem :=
  match hovered with
  | none => items
  | some n => items.map fun it =>
      if it.name = n then { it with highlighted := true } else it

/-- mod.rs line 560: `sort_by_key(|item| item.highlighted())` — a stable sort
on the Bool key, so non-highlighted items keep their insertion order and
precede the highlighted ones (which are drawn later, hence on top). -/
def sortByHighlighted (items : List PlotItem) : List PlotItem :=
  (items.filter fun it => !it.highlighted) ++ (items.filter fun it => it.highlighted)

/-- The accumulator step of Rust's `Iterator::min_by_key`: a later element
replaces the current minimum only on a strictly smaller key, so the first
element attaining the minimum wins. -/
def minAcc {α : Type} (key : α → ℚ) (m y : α) : α :=
  if key y < key m then y else m

/-- Rust's `Iterator::min_by_key` over a list: `none` on an empty list,
otherwise the first element attaining the minimal key. -/
def minByKey {α : Type} (key : α → ℚ) : List α → Option α
  | [] => none
  | x :: xs => some (xs.foldl (minAcc key) x)

/-- `HoverLine` (mod.rs lines 113-119): which rulers to draw at the hover
position. -/
inductive HoverLine where
  | none
  | x
  | y
  | xy
  deriving DecidableEq, Repr

/-- The hover configuration handed to the hover query (mod.rs lines 1064-1067). -/
structure HoverConfig where
  hover_line : HoverLine
  show_hover_label : Bool
  deriving DecidableEq, Repr

/-- What `PreparedPlot::hover` draws: nothing (early return), the winning
item's own hover marker, or plain rulers at a data-space value with a label. -/
inductive HoverResult where
  | nothing
  | onHover (item : PlotItem) (elem : ClosestElem)
  | rulers (value : ℚ × ℚ) (label : String)
  deriving DecidableEq, Repr

/-- mod.rs lines 1034-1077: `PreparedPlot::hover` — return early when neither
rulers nor labels are wanted; otherwise query every item's closest-point
result, keep the minimum by squared screen distance (`min_by_key`), reject it
when the distance exceeds `16^2`, and fall back to plain rulers at the
pointer's data-space value with an empty label when no item qualifies. -/
def hoverQuery (cfg : HoverConfig) (items : List PlotItem) (t : ScreenTransform)
    (pointer : ℚ × ℚ) : HoverResult :=
  if cfg.hover_line = HoverLine.none ∧ cfg.show_hover_label = false then
    HoverResult.nothing
  else
    let interact_radius_sq : ℚ := 16 ^ 2
    let candidates := items.filterMap fun it => it.closest.map fun e => (it, e)
    let closest := (minByKey (fun p => p.2.dist_sq) candidates).filter
        fun p => decide (p.2.dist_sq ≤ interact_radius_sq)
    match closest with
    | some (it, e) => HoverResult.onHover it e
    | none => HoverResult.rulers (t.value_from_position pointer) ""

/-- mod.rs lines 948-953: the tick step for an axis — with base 10 and a
minimum line spacing of 6 points, `base ^ ceil(log_base |dvalue_dpos * 6|)`,
over exact rationals via `Int.clog`. -/
def stepSize (dvalue_dpos : ℚ) : ℚ :=
  (10 : ℚ) ^ Int.clog 10 |dvalue_dpos * 6|

/-- mod.rs lines 960-964: the tick enumeration loop — for `i = 0, 1, 2, …`
emit `step * floor(bounds.min/step + i)` and break at the first value strictly
greater than `bounds.max`; the unbounded `for` is fuel-bounded here. -/
def tickValues (step bmin bmax : ℚ) : ℕ → ℕ → List ℚ
  | 0, _ => []
  | fuel + 1, i =>
    let value_main := step * (⌊bmin / step + (i : ℚ)⌋ : ℚ)
    if bmax < value_main then []
    else value_main :: tickValues step bmin bmax fuel (i + 1)

/-- Modelled from the spec: `emath::remap_clamp` — the clamped linear remap of
`x` from `[a, b]` to `[c, d]` (for `a ≤ b`): values at or below `a` map to
`c`, values at or above `b` map to `d`, and the interior is linear. -/
def remap_clamp (x a b c d : ℚ) : ℚ :=
  if x ≤ a then c
  else if b ≤ x then d
  else c + (x - a) / (b - a) * (d - c)

/-- mod.rs lines 982-986: the grid-line alpha of a tick with the given
effective pixel spacing — spacing remapped from `[6, 300]` to `[0, 0.15]`. -/
def line_alpha (spacing : ℚ) : ℚ :=
  remap_clamp spacing 6 300 0 (3 / 20)

/-- mod.rs line 998: the label alpha — spacing remapped from `[40, 150]` to
`[0, 0.4]`. -/
def text_alpha (spacing : ℚ) : ℚ :=
  remap_clamp spacing 40 150 0 (2 / 5)

/-- mod.rs line 988: a grid line is pushed only when its alpha is strictly
positive. -/
def draws_grid_line (spacing : ℚ) : Bool :=
  decide (0 < line_alpha spacing)

/-- mod.rs line 1000: a label is laid out only when its alpha is strictly
positive. -/
def draws_label (spacing : ℚ) : Bool :=
  decide (0 < text_alpha spacing)

/-- Colors as the builder ops distinguish them: the `TRANSPARENT` sentinel
that requests an automatic color, and everything else.  `auto i` stands for
the i-th golden-ratio Hsva hue of `PlotUi::auto_color` (mod.rs lines 740-746),
whose exact float value no claim depends on. -/
inductive Color32 where
  | transparent
  | auto (i : ℕ)
  deriving DecidableEq, Repr

/-- Modelled from the spec: `Line` (items.rs) as `PlotUi::line` observes it:
its data series and stroke color. -/
structure Line where
  series : List (ℚ × ℚ)
  stroke_color : Color32
  deriving DecidableEq, Repr

/-- Modelled from the spec: `Polygon` (items.rs) as `PlotUi::polygon`
observes it. -/
structure Polygon where
  series : List (ℚ × ℚ)
  stroke_color : Color32
  deriving DecidableEq, Repr

/-- Modelled from the spec: `Text` (items.rs) as `PlotUi::text` observes it. -/
structure Text where
  text : String
  deriving DecidableEq, Repr

/-- Modelled from the spec: `Points` (items.rs) as `PlotUi::points`
observes it. -/
structure Points where
  series : List (ℚ × ℚ)
  color : Color32
  deriving DecidableEq, Repr

/-- Modelled from the spec: `Arrows` (items.rs) as `PlotUi::arrows`
observes it. -/
structure Arrows where
  origins : List (ℚ × ℚ)
  tips : List (ℚ × ℚ)
  color : Color32
  deriving DecidableEq, Repr

/-- Modelled from the spec: `BoxPlot` (items.rs) as `PlotUi::box_plot`
observes it; each box element is abstracted to its spread of values. -/
structure BoxPlot where
  boxes : List (List ℚ)
  default_color : Color32
  deriving DecidableEq, Repr

/-- Modelled from the spec: `BarChart` (items.rs) as `PlotUi::bar_chart`
observes it; each bar is abstracted to its argument/value pair. -/
structure BarChart where
  bars : List (ℚ × ℚ)
  default_color : Color32
  deriving DecidableEq, Repr

/-- The items a builder callback can append, tagged by variant. -/
inductive PlotItemKind where
  | line (l : Line)
  | polygon (p : Polygon)
  | text (t : Text)
  | points (p : Points)
  | arrows (a : Arrows)
  | boxPlot (b : BoxPlot)
  | barChart (b : BarChart)
  deriving DecidableEq, Repr

/-- The mutable state of `PlotUi` (mod.rs lines 731-737) that the builder ops
touch: the appended items and the auto-color counter. -/
structure PlotUiState where
  items : List PlotItemKind
  next_auto_color_idx : ℕ
  deriving DecidableEq, Repr

/-- mod.rs lines 740-746: `PlotUi::auto_color` — return the next automatic
color and advance the counter. -/
def PlotUiState.auto_color (st : PlotUiState) : Color32 × PlotUiState :=
  (Color32.auto st.next_auto_color_idx,
   { st with next_auto_color_idx := st.next_auto_color_idx + 1 })

/-- mod.rs lines 790-800: `PlotUi::line` — an empty series returns without
touching the state; otherwise a transparent stroke gets an auto color and the
line is appended. -/
def PlotUiState.line (st : PlotUiState) (l : Line) : PlotUiState :=
  if l.series.isEmpty then st
  else
    let r := if l.stroke_color = Color32.transparent then
        let p := st.auto_color
        ({ l with stroke_color := p.1 }, p.2)
      else (l, st)
    { r.2 with items := r.2.items ++ [PlotItemKind.line r.1] }

/-- mod.rs lines 803-813: `PlotUi::polygon`. -/
def PlotUiState.polygon (st : PlotUiState) (pg : Polygon) : PlotUiState :=
  if pg.series.isEmpty then st
  else
    let r := if pg.stroke_color = Color32.transparent then
        let p := st.auto_color
        ({ pg with stroke_color := p.1 }, p.2)
      else (pg, st)
    { r.2 with items := r.2.items ++ [PlotItemKind.polygon r.1] }

/-- mod.rs lines 816-822: `PlotUi::text` — an empty string returns without
touching the state. -/
def PlotUiState.text (st : PlotUiState) (tx : Text) : PlotUiState :=
  if tx.text.isEmpty then st
  else { st with items := st.items ++ [PlotItemKind.text tx] }

/-- mod.rs lines 825-835: `PlotUi::points`. -/
def PlotUiState.points (st : PlotUiState) (ps : Points) : PlotUiState :=
  if ps.series.isEmpty then st
  else
    let r := if ps.color = Color32.transparent then
        let p := st.auto_color
        ({ ps with color := p.1 }, p.2)
      else (ps, st)
    { r.2 with items := r.2.items ++ [PlotItemKind.points r.1] }

/-- mod.rs lines 838-848: `PlotUi::arrows` — empty origins or empty tips
return without touching the state. -/
def PlotUiState.arrows (st : PlotUiState) (ar : Arrows) : PlotUiState :=
  if ar.origins.isEmpty || ar.tips.isEmpty then st
  else
    let r := if ar.color = Color32.transparent then
        let p := st.auto_color
        ({ ar with color := p.1 }, p.2)
      else (ar, st)
    { r.2 with items := r.2.items ++ [PlotItemKind.arrows r.1] }

/-- mod.rs lines 876-886: `PlotUi::box_plot`. -/
def PlotUiState.box_plot (st : PlotUiState) (bp : BoxPlot) : PlotUiState :=
  if bp.boxes.isEmpty then st
  else
    let r := if bp.default_color = Color32.transparent then
        let p := st.auto_color
        ({ bp with default_color := p.1 }, p.2)
      else (bp, st)
    { r.2 with items := r.2.items ++ [PlotItemKind.boxPlot r.1] }

/-- mod.rs lines 889-899: `PlotUi::bar_chart`. -/
def PlotUiState.bar_chart (st : PlotUiState) (bc : BarChart) : PlotUiState :=
  if bc.bars.isEmpty then st
  else
    let r := if bc.default_color = Color32.transparent then
        let p := st.auto_color
        ({ bc with default_color := p.1 }, p.2)
      else (bc, st)
    { r.2 with items := r.2.items ++ [PlotItemKind.barChart r.1] }

/-! Helper lemmas about the `min_by_key` fold. -/

theorem foldl_minAcc_le_init {α : Type} (key : α → ℚ) (xs : List α) (x : α) :
    key (xs.foldl (minAcc key) x) ≤ key x := by
  induction xs generalizing x with
  | nil => exact le_refl _
  | cons y ys ih =>
    refine le_trans (ih (minAcc key x y)) ?_
    unfold minAcc
    split
    · exact le_of_lt (by assumption)
    · exact le_refl _

theorem foldl_minAcc_le_mem {α : Type} (key : α → ℚ) (xs : List α) (x : α) :
    ∀ y ∈ xs, key (xs.foldl (minAcc key) x) ≤ key y := by
  induction xs generalizing x with
  | nil => intro y hy; cases hy
  | cons z zs ih =>
    intro y hy
    rcases List.mem_cons.1 hy with h | h
    · subst h
      refine le_trans (foldl_minAcc_le_init key zs _) ?_
      unfold minAcc
      split
      · exact le_refl _
      · exact le_of_not_lt (by assumption)
    · exact ih _ y h

theorem foldl_minAcc_mem {α : Type} (key : α → ℚ) (xs : List α) (x : α) :
    xs.foldl (minAcc key) x = x ∨ xs.foldl (minAcc key) x ∈ xs := by
  induction xs generalizing x with
  | nil => exact Or.inl rfl
  | cons z zs ih =>
    rw [List.foldl_cons]
    rcases ih (minAcc key x z) with h | h
    · rw [h]
      unfold minAcc
      split
      · exact Or.inr (List.mem_cons_self _ _)
      · exact Or.inl rfl
    · exact Or.inr (List.mem_cons_of_mem _ h)

theorem foldl_minAcc_first {α : Type} (key : α → ℚ) (xs : List α) (x : α)
    (h : ∀ y ∈ xs, key x ≤ key y) : xs.foldl (minAcc key) x = x := by
  induction xs generalizing x with
  | nil => rfl
  | cons z zs ih =>
    rw [List.foldl_cons]
    have hxz : minAcc key x z = x := by
      unfold minAcc
      rw [if_neg (not_lt.2 (h z (List.mem_cons_self _ _)))]
    rw [hxz]
    exact ih x fun y hy => h y (List.mem_cons_of_mem _ hy)

/-- Unfolding of `hoverQuery` when the early return is not taken. -/
theorem hoverQuery_eq_of_active (cfg : HoverConfig) (items : List PlotItem)
    (t : ScreenTransform) (pointer : ℚ × ℚ)
    (hactive : ¬ (cfg.hover_line = HoverLine.none ∧ cfg.show_hover_label = false)) :
    hoverQuery cfg items t pointer =
      (match (minByKey (fun p : PlotItem × ClosestElem => p.2.dist_sq)
          (items.filterMap fun i => i.closest.map fun c => (i, c))).filter
          (fun p => decide (p.2.dist_sq ≤ 16 ^ 2)) with
        | some (it, e) => HoverResult.onHover it e
        | none => HoverResult.rulers (t.value_from_position pointer) "") := by
  unfold hoverQuery
  rw [if_neg hactive]
  rfl

/-- Claim C4: given a hover pointer position, the hit-test takes the minimum
over all items' `find_closest` results by squared screen distance, rejects
that winner when its squared distance exceeds `16^2`, and when no item
qualifies falls back to plain axis rulers at the pointer's data-space value
with an empty item label.  (`items` is the retained, non-hidden item list the
source passes to `PreparedPlot::hover`.) -/
theorem hover_hit_test_spec (cfg : HoverConfig) (items : List PlotItem)
    (t : ScreenTransform) (pointer : ℚ × ℚ)
    (hactive : ¬ (cfg.hover_line = HoverLine.none ∧ cfg.show_hover_label = false)) :
    ((∀ p ∈ items.filterMap (fun i => i.closest.map fun c => (i, c)),
        ¬ p.2.dist_sq ≤ 16 ^ 2) →
      hoverQuery cfg items t pointer
        = HoverResult.rulers (t.value_from_position pointer) "") ∧
    (∀ it e, hoverQuery cfg items t pointer = HoverResult.onHover it e →
      (it, e) ∈ items.filterMap (fun i => i.closest.map fun c => (i, c)) ∧
      e.dist_sq ≤ 16 ^ 2 ∧
      ∀ p ∈ items.filterMap (fun i => i.closest.map fun c => (i, c)),
        e.dist_sq ≤ p.2.dist_sq) ∧
    ((∃ p ∈ items.filterMap (fun i => i.closest.map fun c => (i, c)),
        p.2.dist_sq ≤ 16 ^ 2) →
      ∃ it e, hoverQuery cfg items t pointer = HoverResult.onHover it e) := by
  have hq := hoverQuery_eq_of_active cfg items t pointer hactive
  cases hc : items.filterMap fun i => i.closest.map fun c => (i, c) with
  | nil =>
    rw [hc] at hq
    refine ⟨fun _ => hq, fun it e he => ?_, fun hex => ?_⟩
    · rw [hq] at he; cases he
    · rcases hex with ⟨p, hp, _⟩; cases hp
  | cons c cs =>
    rw [hc] at hq
    have hmin : minByKey (fun p : PlotItem × ClosestElem => p.2.dist_sq) (c :: cs)
        = some (cs.foldl (minAcc fun p => p.2.dist_sq) c) := rfl
    set m := cs.foldl (minAcc fun p : PlotItem × ClosestElem => p.2.dist_sq) c with hm
    have hmem : m ∈ c :: cs := by
      rcases foldl_minAcc_mem (fun p : PlotItem × ClosestElem => p.2.dist_sq) cs c with h | h
      · rw [hm, h]; exact List.mem_cons_self _ _
      · rw [hm]; exact List.mem_cons_of_mem _ h
    have hle : ∀ p ∈ c :: cs, m.2.dist_sq ≤ p.2.dist_sq := by
      intro p hp
      rcases List.mem_cons.1 hp with h | h
      · rw [h, hm]
        exact foldl_minAcc_le_init (fun p : PlotItem × ClosestElem => p.2.dist_sq) cs c
      · rw [hm]
        exact foldl_minAcc_le_mem (fun p : PlotItem × ClosestElem => p.2.dist_sq) cs c p h
    rw [hmin] at hq
    by_cases hr : m.2.dist_sq ≤ 16 ^ 2
    · have : (some m).filter (fun p : PlotItem × ClosestElem =>
          decide (p.2.dist_sq ≤ 16 ^ 2)) = some m := by
        simp [Option.filter, hr]
      rw [this] at hq
      refine ⟨fun hall => absurd hr (hall m hmem), fun it e he => ?_, fun _ => ?_⟩
      · rw [hq] at he
        cases he
        exact ⟨hmem, hr, hle⟩
      · exact ⟨m.1, m.2, hq⟩
    · have : (some m).filter (fun p : PlotItem × ClosestElem =>
          decide (p.2.dist_sq ≤ 16 ^ 2)) = none := by
        simp [Option.filter, hr]
      rw [this] at hq
      refine ⟨fun _ => hq, fun it e he => ?_, fun hex => ?_⟩
      · rw [hq] at he; cases he
      · rcases hex with ⟨p, hp, hple⟩
        exact absurd (le_trans (hle p hp) hple) hr

/-- Witness for `hover_hit_test_spec` at a concrete configuration, item list
and pointer: one item at distance 9 within the 256-radius, so the hover query
must return a hit. -/
theorem hover_hit_test_spec_witness :
    ∃ it e,
      hoverQuery ⟨HoverLine.xy, true⟩
        [⟨"a", false, some ⟨(1, 1), 9⟩⟩]
        ⟨⟨(0, 0), (100, 100)⟩, ⟨(0, 0), (10, 10)⟩⟩ (50, 50)
        = HoverResult.onHover it e :=
  (hover_hit_test_spec ⟨HoverLine.xy, true⟩
      [⟨"a", false, some ⟨(1, 1), 9⟩⟩]
      ⟨⟨(0, 0), (100, 100)⟩, ⟨(0, 0), (10, 10)⟩⟩ (50, 50)
      (by decide)).2.2
    ⟨(⟨"a", false, some ⟨(1, 1), 9⟩⟩, ⟨(1, 1), 9⟩), by decide, by decide⟩

/-- Claim C7: when two items' closest elements are at equal minimal squared
distance from the pointer and neither item is highlighted, the hover query —
run on the item list as the source prepares it (retain the non-hidden items,
apply the legend highlight, stable-sort by the highlight flag) — selects the
earlier-inserted item. -/
theorem hover_tie_break_first_item (cfg : HoverConfig) (A B : PlotItem)
    (ea eb : ClosestElem) (t : ScreenTransform) (pointer : ℚ × ℚ)
    (hactive : ¬ (cfg.hover_line = HoverLine.none ∧ cfg.show_hover_label = false))
    (hA : A.closest = some ea) (hB : B.closest = some eb)
    (hAh : A.highlighted = false) (hBh : B.highlighted = false)
    (heq : ea.dist_sq = eb.dist_sq) (hr : ea.dist_sq ≤ 16 ^ 2) :
    hoverQuery cfg
      (sortByHighlighted (applyHighlight Option.none (retainVisible [] [A, B])))
      t pointer = HoverResult.onHover A ea := by
  have hprep :
      sortByHighlighted (applyHighlight Option.none (retainVisible [] [A, B])) = [A, B] := by
    simp [sortByHighlighted, applyHighlight, retainVisible, hAh, hBh]
  have hcand :
      List.filterMap (fun i : PlotItem => i.closest.map fun c => (i, c)) [A, B]
        = [(A, ea), (B, eb)] := by
    simp [List.filterMap_cons, hA, hB]
  have hmin :
      minByKey (fun p : PlotItem × ClosestElem => p.2.dist_sq) [(A, ea), (B, eb)]
        = some (A, ea) := by
    show some (minAcc (fun p : PlotItem × ClosestElem => p.2.dist_sq) (A, ea) (B, eb))
      = some (A, ea)
    simp only [minAcc]
    rw [if_neg (by rw [heq]; exact lt_irrefl _)]
  rw [hprep, hoverQuery_eq_of_active cfg [A, B] t pointer hactive, hcand, hmin]
  simp [Option.filter, hr]

/-- Witness for `hover_tie_break_first_item`: the spec's concrete scenario —
items A and B both at squared distance 5, inserted in that order, always
resolve to A. -/
theorem hover_tie_break_first_item_witness :
    hoverQuery ⟨HoverLine.xy, true⟩
      (sortByHighlighted (applyHighlight Option.none (retainVisible []
        [⟨"A", false, some ⟨(1, 2), 5⟩⟩, ⟨"B", false, some ⟨(3, 4), 5⟩⟩])))
      ⟨⟨(0, 0), (100, 100)⟩, ⟨(0, 0), (10, 10)⟩⟩ (50, 50)
      = HoverResult.onHover ⟨"A", false, some ⟨(1, 2), 5⟩⟩ ⟨(1, 2), 5⟩ :=
  hover_tie_break_first_item ⟨HoverLine.xy, true⟩
    ⟨"A", false, some ⟨(1, 2), 5⟩⟩ ⟨"B", false, some ⟨(3, 4), 5⟩⟩
    ⟨(1, 2), 5⟩ ⟨(3, 4), 5⟩
    ⟨⟨(0, 0), (100, 100)⟩, ⟨(0, 0), (10, 10)⟩⟩ (50, 50)
    (by decide) rfl rfl rfl rfl rfl (by decide)

/-! Monotonicity of the affine remap, used for the box-zoom ordering claim. -/

theorem remap_mono (x y a b c d : ℚ) (hab : a < b) (hcd : c ≤ d) (hxy : x ≤ y) :
    remap x a b c d ≤ remap y a b c d := by
  unfold remap
  have h1 : (x - a) / (b - a) ≤ (y - a) / (b - a) :=
    (div_le_div_iff_of_pos_right (sub_pos.2 hab)).2 (sub_le_sub_right hxy a)
  exact add_le_add_left (mul_le_mul_of_nonneg_right h1 (sub_nonneg.2 hcd)) c

theorem remap_anti (x y a b c d : ℚ) (hba : b < a) (hcd : c ≤ d) (hxy : x ≤ y) :
    remap y a b c d ≤ remap x a b c d := by
  unfold remap
  have h1 : (y - a) / (b - a) ≤ (x - a) / (b - a) :=
    (div_le_div_right_of_neg (sub_neg.2 hba)).2 (sub_le_sub_right hxy a)
  exact add_le_add_left (mul_le_mul_of_nonneg_right h1 (sub_nonneg.2 hcd)) c

/-- Claim C1 is false on the code: the box-zoom commit does not normalize the
drag rectangle.  Dragging from screen corner (80, 20) to (20, 80) over a
nondegenerate transform yields data bounds with `min.x = 8 > 2 = max.x`, so
not every corner ordering produces `min ≤ max` on both axes. -/
theorem box_zoom_not_normalized :
    ¬ (((boxZoomNewBounds ⟨⟨(0, 0), (100, 100)⟩, ⟨(0, 0), (10, 10)⟩⟩
          (80, 20) (20, 80)).min.1
        ≤ (boxZoomNewBounds ⟨⟨(0, 0), (100, 100)⟩, ⟨(0, 0), (10, 10)⟩⟩
          (80, 20) (20, 80)).max.1)
      ∧ ((boxZoomNewBounds ⟨⟨(0, 0), (100, 100)⟩, ⟨(0, 0), (10, 10)⟩⟩
          (80, 20) (20, 80)).min.2
        ≤ (boxZoomNewBounds ⟨⟨(0, 0), (100, 100)⟩, ⟨(0, 0), (10, 10)⟩⟩
          (80, 20) (20, 80)).max.2)) := by
  norm_num [boxZoomNewBounds, ScreenTransform.value_from_position, remap]

/-- Claim C1 as amended: the commit's data bounds are built as
`min = [start.x, end.y]`, `max = [end.x, start.y]` without normalization, so
they satisfy `min ≤ max` on both axes for the top-left → bottom-right screen
ordering (start weakly left of and above end, with screen y growing downward),
given a nondegenerate frame and ordered transform bounds; the other orderings
produce inverted bounds, which the release branch rejects. -/
theorem box_zoom_tl_br_ordered (t : ScreenTransform) (s e : ℚ × ℚ)
    (hfx : t.frame.min.1 < t.frame.max.1) (hfy : t.frame.min.2 < t.frame.max.2)
    (hbx : t.bounds.min.1 ≤ t.bounds.max.1) (hby : t.bounds.min.2 ≤ t.bounds.max.2)
    (hsx : s.1 ≤ e.1) (hsy : s.2 ≤ e.2) :
    (boxZoomNewBounds t s e).min.1 ≤ (boxZoomNewBounds t s e).max.1 ∧
    (boxZoomNewBounds t s e).min.2 ≤ (boxZoomNewBounds t s e).max.2 := by
  constructor
  · exact remap_mono s.1 e.1 t.frame.min.1 t.frame.max.1 t.bounds.min.1 t.bounds.max.1
      hfx hbx hsx
  · exact remap_anti s.2 e.2 t.frame.max.2 t.frame.min.2 t.bounds.min.2 t.bounds.max.2
      hfy hby hsy

/-- Witness for `box_zoom_tl_br_ordered`: a concrete top-left → bottom-right
drag over a concrete transform yields ordered bounds on both axes. -/
theorem box_zoom_tl_br_ordered_witness :
    (boxZoomNewBounds ⟨⟨(0, 0), (100, 100)⟩, ⟨(0, 0), (10, 10)⟩⟩
        (20, 20) (80, 80)).min.1
      ≤ (boxZoomNewBounds ⟨⟨(0, 0), (100, 100)⟩, ⟨(0, 0), (10, 10)⟩⟩
        (20, 20) (80, 80)).max.1 ∧
    (boxZoomNewBounds ⟨⟨(0, 0), (100, 100)⟩, ⟨(0, 0), (10, 10)⟩⟩
        (20, 20) (80, 80)).min.2
      ≤ (boxZoomNewBounds ⟨⟨(0, 0), (100, 100)⟩, ⟨(0, 0), (10, 10)⟩⟩
        (20, 20) (80, 80)).max.2 :=
  box_zoom_tl_br_ordered ⟨⟨(0, 0), (100, 100)⟩, ⟨(0, 0), (10, 10)⟩⟩
    (20, 20) (80, 80) (by decide) (by decide) (by decide) (by decide)
    (by decide) (by decide)

/-- Claim C3: on box-zoom release with both corners known — if the data-space
bounds built from the two drag corners are valid, the transform's bounds are
replaced outright by them and automatic-bounds mode is disabled; if they are
invalid (zero-area or inverted), the transform's bounds are left unchanged and
automatic-bounds mode is re-enabled; in both cases the stored click position
for box zoom is cleared. -/
theorem box_zoom_release_spec (t : ScreenTransform) (s e : ℚ × ℚ) (auto : Bool) :
    ((boxZoomNewBounds t s e).is_valid = true →
      applyBoxedZoom true false true (some e) (some s) t auto
        = ({ t with bounds := boxZoomNewBounds t s e }, false, none)) ∧
    ((boxZoomNewBounds t s e).is_valid = false →
      applyBoxedZoom true false true (some e) (some s) t auto
        = (t, true, none)) := by
  constructor <;> intro h <;> simp [applyBoxedZoom, h]

/-- Witness for `box_zoom_release_spec`: a valid box (20,20)→(80,80) commits
its data bounds and disables auto-bounds; an inverted box (80,20)→(20,80)
leaves the bounds alone and re-enables auto-bounds; both clear the stored
click position. -/
theorem box_zoom_release_spec_witness :
    (applyBoxedZoom true false true (some ((80 : ℚ), (80 : ℚ)))
        (some ((20 : ℚ), (20 : ℚ)))
        ⟨⟨(0, 0), (100, 100)⟩, ⟨(0, 0), (10, 10)⟩⟩ true
      = (⟨⟨(0, 0), (100, 100)⟩,
          boxZoomNewBounds ⟨⟨(0, 0), (100, 100)⟩, ⟨(0, 0), (10, 10)⟩⟩
            (20, 20) (80, 80)⟩, false, none)) ∧
    (applyBoxedZoom true false true (some ((20 : ℚ), (80 : ℚ)))
        (some ((80 : ℚ), (20 : ℚ)))
        ⟨⟨(0, 0), (100, 100)⟩, ⟨(0, 0), (10, 10)⟩⟩ false
      = (⟨⟨(0, 0), (100, 100)⟩, ⟨(0, 0), (10, 10)⟩⟩, true, none)) :=
  ⟨(box_zoom_release_spec ⟨⟨(0, 0), (100, 100)⟩, ⟨(0, 0), (10, 10)⟩⟩
      (20, 20) (80, 80) true).1
      (by norm_num [PlotBounds.is_valid, boxZoomNewBounds,
        ScreenTransform.value_from_position, remap]),
   (box_zoom_release_spec ⟨⟨(0, 0), (100, 100)⟩, ⟨(0, 0), (10, 10)⟩⟩
      (80, 20) (20, 80) false).2
      (by norm_num [PlotBounds.is_valid, boxZoomNewBounds,
        ScreenTransform.value_from_position, remap])⟩

/-- Claim C9: a frame whose scroll delta is (0,0) and whose zoom factor is the
identity leaves the transform's bounds and the auto_bounds flag unchanged by
the scroll/zoom handling — neither zero-delta branch is taken, for any
allow_zoom flag and any hover position. -/
theorem scroll_zoom_zero_noop (allow : Bool) (hover : Option (ℚ × ℚ))
    (t : ScreenTransform) (auto : Bool) :
    applyScrollZoom allow hover (1, 1) (0, 0) t auto = (t, auto) := by
  cases allow with
  | false => rfl
  | true =>
    cases hover with
    | none => rfl
    | some hp => simp [applyScrollZoom]

/-- Claim C10: calling the builder ops `line`, `polygon`, `points`, `text`,
`arrows`, `box_plot` or `bar_chart` with an empty data series is a no-op: the
`PlotUi` state — the item list and the auto-color counter — is left unchanged,
so an empty item contributes nothing to auto-bounds, the legend or hover
hit-testing. -/
theorem empty_series_noop :
    (∀ (st : PlotUiState) (l : Line), l.series = [] → st.line l = st) ∧
    (∀ (st : PlotUiState) (pg : Polygon), pg.series = [] → st.polygon pg = st) ∧
    (∀ (st : PlotUiState) (ps : Points), ps.series = [] → st.points ps = st) ∧
    (∀ (st : PlotUiState) (tx : Text), tx.text = "" → st.text tx = st) ∧
    (∀ (st : PlotUiState) (ar : Arrows), ar.origins = [] ∨ ar.tips = [] →
      st.arrows ar = st) ∧
    (∀ (st : PlotUiState) (bp : BoxPlot), bp.boxes = [] → st.box_plot bp = st) ∧
    (∀ (st : PlotUiState) (bc : BarChart), bc.bars = [] → st.bar_chart bc = st) := by
  refine ⟨fun st x h => ?_, fun st x h => ?_, fun st x h => ?_, fun st x h => ?_,
    fun st x h => ?_, fun st x h => ?_, fun st x h => ?_⟩
  · simp [PlotUiState.line, h]
  · simp [PlotUiState.polygon, h]
  · simp [PlotUiState.points, h]
  · simp only [PlotUiState.text, h]
    rfl
  · rcases h with h | h <;> simp [PlotUiState.arrows, h]
  · simp [PlotUiState.box_plot, h]
  · simp [PlotUiState.bar_chart, h]

/-- Witness for `empty_series_noop`: each op applied to a concretely empty
item over the starting state returns the state unchanged. -/
theorem empty_series_noop_witness :
    PlotUiState.line ⟨[], 0⟩ ⟨[], Color32.transparent⟩ = ⟨[], 0⟩ ∧
    PlotUiState.polygon ⟨[], 0⟩ ⟨[], Color32.transparent⟩ = ⟨[], 0⟩ ∧
    PlotUiState.points ⟨[], 0⟩ ⟨[], Color32.transparent⟩ = ⟨[], 0⟩ ∧
    PlotUiState.text ⟨[], 0⟩ ⟨""⟩ = ⟨[], 0⟩ ∧
    PlotUiState.arrows ⟨[], 0⟩ ⟨[], [(1, 1)], Color32.transparent⟩ = ⟨[], 0⟩ ∧
    PlotUiState.box_plot ⟨[], 0⟩ ⟨[], Color32.transparent⟩ = ⟨[], 0⟩ ∧
    PlotUiState.bar_chart ⟨[], 0⟩ ⟨[], Color32.transparent⟩ = ⟨[], 0⟩ :=
  ⟨empty_series_noop.1 ⟨[], 0⟩ ⟨[], Color32.transparent⟩ rfl,
   empty_series_noop.2.1 ⟨[], 0⟩ ⟨[], Color32.transparent⟩ rfl,
   empty_series_noop.2.2.1 ⟨[], 0⟩ ⟨[], Color32.transparent⟩ rfl,
   empty_series_noop.2.2.2.1 ⟨[], 0⟩ ⟨""⟩ rfl,
   empty_series_noop.2.2.2.2.1 ⟨[], 0⟩ ⟨[], [(1, 1)], Color32.transparent⟩ (Or.inl rfl),
   empty_series_noop.2.2.2.2.2.1 ⟨[], 0⟩ ⟨[], Color32.transparent⟩ rfl,
   empty_series_noop.2.2.2.2.2.2 ⟨[], 0⟩ ⟨[], Color32.transparent⟩ rfl⟩

/-- Claim C8: the link group's `get` returns none until some plot has written
this session and afterwards the most recently stored bounds; `set` stores its
argument unconditionally; over any sequence of writes the last writer wins;
and a frame of any plot configured with the group writes its frame-final
resolved bounds to the group. -/
theorem linked_axis_group_last_writer_wins :
    (LinkedAxisGroup.get LinkedAxisGroup.init = none) ∧
    (∀ (b : PlotBounds) (s : Option PlotBounds),
      LinkedAxisGroup.get (LinkedAxisGroup.set b s) = some b) ∧
    (∀ (ws : List PlotBounds) (s₀ : Option PlotBounds) (b : PlotBounds),
      LinkedAxisGroup.get (runLinkWrites (ws ++ [b]) s₀) = some b) ∧
    (∀ (inp : FrameInput) (g : LinkedAxisGroup),
      (frameResolve { inp with linked_axes := some g }).link_state
        = some (frameResolve { inp with linked_axes := some g }).transform.bounds) := by
  refine ⟨rfl, fun b s => rfl, fun ws s₀ b => ?_, fun inp g => rfl⟩
  unfold runLinkWrites
  rw [List.foldl_append]
  rfl

/-- The tick enumeration never emits a position above `bmax`, for any step. -/
theorem tickValues_le_max (step bmin bmax : ℚ) :
    ∀ (fuel i : ℕ), ∀ v ∈ tickValues step bmin bmax fuel i, v ≤ bmax := by
  intro fuel
  induction fuel with
  | zero => intro i v hv; cases hv
  | succ n ih =>
    intro i v hv
    simp only [tickValues] at hv
    split at hv
    · cases hv
    · rcases List.mem_cons.1 hv with h1 | h1
      · subst h1
        exact le_of_not_lt (by assumption)
      · exact ih (i + 1) v h1

/-- Claim C5: the tick step is `base ^ ceil(log_base(min_spacing * data_per_px))`
with base 10 and minimum spacing 6 — so it is at least `6 * |dvalue_dpos|`,
i.e. its screen spacing meets the 6-point minimum — and tick positions are
enumerated as `step * floor(bounds.min/step + i)` for `i = 0, 1, 2, …`,
stopping at the first position strictly greater than `bounds.max`, so every
emitted tick position is at most `bounds.max`. -/
theorem tick_step_and_emission_spec (d bmin bmax : ℚ) (fuel i : ℕ) :
    (∀ v ∈ tickValues (stepSize d) bmin bmax fuel i, v ≤ bmax) ∧
    6 * |d| ≤ stepSize d := by
  constructor
  · exact tickValues_le_max (stepSize d) bmin bmax fuel i
  · have h := @Int.self_le_zpow_clog ℚ _ _ 10 (by norm_num) |d * 6|
    have hc : ((10 : ℕ) : ℚ) = (10 : ℚ) := by norm_num
    rw [hc] at h
    unfold stepSize
    calc 6 * |d| = |d * 6| := by rw [abs_mul]; norm_num [mul_comm]
      _ ≤ _ := h

/-- Witness for `tick_step_and_emission_spec`: at `dvalue_dpos = 1/6` the step
is `10^0 = 1`, the enumeration over bounds `[0, 3]` emits `[0, 1, 2, 3]`, and
the theorem bounds the concrete member `2` by `3`. -/
theorem tick_step_and_emission_spec_witness :
    (2 : ℚ) ∈ tickValues (stepSize (1 / 6)) 0 3 5 0 ∧ (2 : ℚ) ≤ 3 := by
  have hstep : stepSize (1 / 6) = 1 := by
    norm_num [stepSize]
  have hl : tickValues (stepSize (1 / 6)) 0 3 5 0 = [0, 1, 2, 3] := by
    rw [hstep]
    norm_num [tickValues]
  have hmem : (2 : ℚ) ∈ tickValues (stepSize (1 / 6)) 0 3 5 0 := by
    rw [hl]
    norm_num
  exact ⟨hmem, (tick_step_and_emission_spec (1 / 6) 0 3 5 0).1 2 hmem⟩

/-! Bounds and monotonicity of the clamped remap. -/

theorem remap_clamp_lb (x a b c d : ℚ) (hab : a < b) (hcd : c ≤ d) :
    c ≤ remap_clamp x a b c d := by
  unfold remap_clamp
  split
  · exact le_refl c
  · split
    · exact hcd
    · have hx : a < x := lt_of_not_le (by assumption)
      have h1 : 0 ≤ (x - a) / (b - a) := div_nonneg (by linarith) (by linarith)
      have h2 : 0 ≤ (x - a) / (b - a) * (d - c) := mul_nonneg h1 (by linarith)
      linarith

theorem remap_clamp_ub (x a b c d : ℚ) (hab : a < b) (hcd : c ≤ d) :
    remap_clamp x a b c d ≤ d := by
  unfold remap_clamp
  split
  · exact hcd
  · split
    · exact le_refl d
    · have hx : x < b := lt_of_not_le (by assumption)
      have h1 : (x - a) / (b - a) ≤ 1 := (div_le_one (by linarith)).2 (by linarith)
      have h2 : (x - a) / (b - a) * (d - c) ≤ 1 * (d - c) :=
        mul_le_mul_of_nonneg_right h1 (by linarith)
      linarith

theorem remap_clamp_mono (a b c d x y : ℚ) (hab : a < b) (hcd : c ≤ d)
    (hxy : x ≤ y) : remap_clamp x a b c d ≤ remap_clamp y a b c d := by
  by_cases hx : x ≤ a
  · have hx1 : remap_clamp x a b c d = c := by
      unfold remap_clamp
      rw [if_pos hx]
    rw [hx1]
    exact remap_clamp_lb y a b c d hab hcd
  · have hay : ¬ y ≤ a := fun h => hx (le_trans hxy h)
    by_cases hbx : b ≤ x
    · have hby : b ≤ y := le_trans hbx hxy
      have hx1 : remap_clamp x a b c d = d := by
        unfold remap_clamp
        rw [if_neg hx, if_pos hbx]
      have hy1 : remap_clamp y a b c d = d := by
        unfold remap_clamp
        rw [if_neg hay, if_pos hby]
      rw [hx1, hy1]
    · by_cases hby : b ≤ y
      · have hy1 : remap_clamp y a b c d = d := by
          unfold remap_clamp
          rw [if_neg hay, if_pos hby]
        rw [hy1]
        exact remap_clamp_ub x a b c d hab hcd
      · have hx1 : remap_clamp x a b c d = remap x a b c d := by
          unfold remap_clamp remap
          rw [if_neg hx, if_neg hbx]
        have hy1 : remap_clamp y a b c d = remap y a b c d := by
          unfold remap_clamp remap
          rw [if_neg hay, if_neg hby]
        rw [hx1, hy1]
        exact remap_mono x y a b c d hab hcd hxy

/-- Claim C6: grid-line opacity is the clamped linear remap of a tick's
effective pixel spacing from `[6, 300]` to `[0, 0.15]`, hence monotonically
non-decreasing in spacing; its alpha is strictly positive exactly when the
spacing exceeds the 6-point minimum, and a non-positive alpha draws no grid
line; label alpha uses the separate remap `[40, 150] → [0, 0.4]`, so a
positive label alpha forces a positive grid alpha — labels are suppressed
before grid lines are. -/
theorem grid_label_alpha_spec :
    (∀ s1 s2 : ℚ, s1 ≤ s2 → line_alpha s1 ≤ line_alpha s2) ∧
    (∀ s : ℚ, 0 < line_alpha s ↔ 6 < s) ∧
    (∀ s : ℚ, s ≤ 6 → draws_grid_line s = false) ∧
    (∀ s : ℚ, 0 < text_alpha s → 0 < line_alpha s) := by
  have hiff : ∀ s : ℚ, 0 < line_alpha s ↔ 6 < s := by
    intro s
    unfold line_alpha remap_clamp
    constructor
    · intro h
      by_contra hle
      rw [if_pos (not_lt.1 hle)] at h
      exact lt_irrefl 0 h
    · intro h
      rw [if_neg (not_le.2 h)]
      by_cases h3 : (300 : ℚ) ≤ s
      · rw [if_pos h3]
        norm_num
      · rw [if_neg h3]
        have h1 : 0 < (s - 6) / (300 - 6) :=
          div_pos (by linarith) (by norm_num)
        have h2 : 0 < (s - 6) / (300 - 6) * (3 / 20 - 0) := by
          apply mul_pos h1
          norm_num
        linarith
  refine ⟨?_, hiff, ?_, ?_⟩
  · intro s1 s2 h
    exact remap_clamp_mono 6 300 0 (3 / 20) s1 s2 (by norm_num) (by norm_num) h
  · intro s hs
    unfold draws_grid_line
    have : ¬ 0 < line_alpha s := fun h => absurd ((hiff s).1 h) (not_lt.2 hs)
    simp [this]
  · intro s hs
    have h40 : 40 < s := by
      by_contra hle
      have : text_alpha s = 0 := by
        unfold text_alpha remap_clamp
        rw [if_pos (not_lt.1 hle)]
      rw [this] at hs
      exact lt_irrefl 0 hs
    exact (hiff s).2 (by linarith)

/-- Witness for `grid_label_alpha_spec` at concrete spacings: monotone between
10 and 20; positive alpha at spacing 7; no grid line at spacing 5; and at
spacing 50 a positive label alpha yields a positive grid alpha. -/
theorem grid_label_alpha_spec_witness :
    line_alpha 10 ≤ line_alpha 20 ∧
    0 < line_alpha 7 ∧
    draws_grid_line 5 = false ∧
    0 < line_alpha 50 := by
  refine ⟨grid_label_alpha_spec.1 10 20 (by norm_num),
    (grid_label_alpha_spec.2.1 7).2 (by norm_num),
    grid_label_alpha_spec.2.2.1 5 (by norm_num),
    grid_label_alpha_spec.2.2.2 50 ?_⟩
  norm_num [text_alpha, remap_clamp]

/-- A concrete frame for the link-plus-double-click scenario: the link group
supplies bounds (0,0)–(10,10) on both axes, the plot area is double-clicked,
one item spans (2,2)–(4,4), the margin is the default 5 percent, and every
other interaction input is inert. -/
def linkDoubleClickFrame : FrameInput :=
  { rect := ⟨(0, 0), (100, 100)⟩
    last_bounds := ⟨(0, 0), (1, 1)⟩
    auto_bounds := false
    last_click_pos_for_zoom := none
    linked_axes := some ⟨true, true⟩
    link_state := some ⟨(0, 0), (10, 10)⟩
    double_clicked := true
    item_bounds := [⟨(2, 2), (4, 4)⟩]
    min_auto_bounds := PlotBounds.NOTHING
    margin_fraction := (1 / 20, 1 / 20)
    center_x_axis := false
    center_y_axis := false
    data_aspect := none
    allow_drag := true
    dragged_by_primary := false
    drag_delta := (0, 0)
    allow_boxed_zoom := true
    drag_started_by_zoom := false
    drag_released := false
    hover_pos := none
    allow_zoom := true
    zoom_factor := (1, 1)
    scroll_delta := (0, 0) }

/-- Claim C2 is false on the code: in a frame where the link group supplies
bounds (0,0)–(10,10) and the plot is double-clicked, `auto_bounds` does become
true, but the frame's final transform bounds are the auto-fit value
(1.9,1.9)–(4.1,4.1) — items' merged bounds plus margin — not the link group's
value: the double-click reset overrides the link override, not the other way
around. -/
theorem link_double_click_link_loses :
    (frameResolve linkDoubleClickFrame).auto_bounds = true ∧
    (frameResolve linkDoubleClickFrame).transform.bounds
        = ⟨(19 / 10, 19 / 10), (41 / 10, 41 / 10)⟩ ∧
    (frameResolve linkDoubleClickFrame).transform.bounds
        ≠ ⟨(0, 0), (10, 10)⟩ := by
  have h : frameResolve linkDoubleClickFrame
      = ⟨⟨⟨(0, 0), (100, 100)⟩, ⟨(19 / 10, 19 / 10), (41 / 10, 41 / 10)⟩⟩,
          true, none, some ⟨(19 / 10, 19 / 10), (41 / 10, 41 / 10)⟩⟩ := by
    norm_num [frameResolve, linkDoubleClickFrame, linkOverride, autoBoundsFit,
      LinkedAxisGroup.get, LinkedAxisGroup.set, PlotBounds.merge,
      PlotBounds.has_content, PlotBounds.NOTHING, PlotBounds.add_relative_margin,
      PlotBounds.is_valid, ScreenTransform.new, applyDrag, applyBoxedZoom,
      applyScrollZoom]
  rw [h]
  refine ⟨rfl, rfl, ?_⟩
  intro hcontra
  have := congrArg (fun b : PlotBounds => b.min.1) hcontra
  norm_num at this

/-- Claim C2 as amended: in a frame where the link group supplies bounds and
the plot area is double-clicked (all other interaction inputs inert, centering
off, no aspect ratio), `auto_bounds` becomes true and the double-click reset
takes precedence over the link override: the frame's final transform bounds
are the auto-fit bounds — `min_auto_bounds` merged with the items' bounds plus
margin — and that auto-fit value (not the link value) is written back to the
link group. -/
theorem link_double_click_auto_fit_wins (rect : ScreenRect)
    (lastb lb min_auto : PlotBounds) (auto0 : Bool)
    (lc hover : Option (ℚ × ℚ)) (g : LinkedAxisGroup)
    (items : List PlotBounds) (margin dd : ℚ × ℚ) (ad abz az : Bool) :
    (frameResolve
      { rect := rect
        last_bounds := lastb
        auto_bounds := auto0
        last_click_pos_for_zoom := lc
        linked_axes := some g
        link_state := some lb
        double_clicked := true
        item_bounds := items
        min_auto_bounds := min_auto
        margin_fraction := margin
        center_x_axis := false
        center_y_axis := false
        data_aspect := none
        allow_drag := ad
        dragged_by_primary := false
        drag_delta := dd
        allow_boxed_zoom := abz
        drag_started_by_zoom := false
        drag_released := false
        hover_pos := hover
        allow_zoom := az
        zoom_factor := (1, 1)
        scroll_delta := (0, 0) }).auto_bounds = true ∧
    (frameResolve
      { rect := rect
        last_bounds := lastb
        auto_bounds := auto0
        last_click_pos_for_zoom := lc
        linked_axes := some g
        link_state := some lb
        double_clicked := true
        item_bounds := items
        min_auto_bounds := min_auto
        margin_fraction := margin
        center_x_axis := false
        center_y_axis := false
        data_aspect := none
        allow_drag := ad
        dragged_by_primary := false
        drag_delta := dd
        allow_boxed_zoom := abz
        drag_started_by_zoom := false
        drag_released := false
        hover_pos := hover
        allow_zoom := az
        zoom_factor := (1, 1)
        scroll_delta := (0, 0) }).transform.bounds
      = autoBoundsFit min_auto items margin ∧
    (frameResolve
      { rect := rect
        last_bounds := lastb
        auto_bounds := auto0
        last_click_pos_for_zoom := lc
        linked_axes := some g
        link_state := some lb
        double_clicked := true
        item_bounds := items
        min_auto_bounds := min_auto
        margin_fraction := margin
        center_x_axis := false
        center_y_axis := false
        data_aspect := none
        allow_drag := ad
        dragged_by_primary := false
        drag_delta := dd
        allow_boxed_zoom := abz
        drag_started_by_zoom := false
        drag_released := false
        hover_pos := hover
        allow_zoom := az
        zoom_factor := (1, 1)
        scroll_delta := (0, 0) }).link_state
      = some (autoBoundsFit min_auto items margin) := by
  cases ad <;> cases abz <;> cases az <;> cases lc <;> cases hover <;>
    exact ⟨rfl, rfl, rfl⟩

end EguiPlot
